import Mathlib

/-!
Verification of the OAuth token lifecycle of the `flow` CLI (`src/flow/auth.py`)
and context-collection pipeline (`src/flow/context/collector.py`,
`src/flow/context/indexer.py`, `src/flow/utils/files.py`), as a shallow
embedding in Lean 4.

Modelling conventions:
* Python floats for timestamps (`time.time()`, `expires_at`) are modelled
  as `Int` (the claims only compare timestamps, never exercise rounding).
* The HTTP layer (`httpx`) is an oracle: functions that perform a POST take
  the outcome of that POST as an explicit argument
  (`Except RefreshError TokenResponse`).
* Python exceptions that a function can leak are modelled with `Except`;
  a function that cannot raise is a total Lean function.
-/

namespace Flow

/-- `TokenData` dataclass from auth.py (`expires_at` is an epoch timestamp). -/
structure TokenData where
  access_token : String
  refresh_token : String
  expires_at : Int
deriving DecidableEq

/-- The distinct exception classes caught by `get_access_token`:
`httpx.HTTPStatusError`, `httpx.RequestError`, and any other `Exception`. -/
inductive RefreshError where
  | httpStatus (code : Nat)
  | network
  | other
deriving DecidableEq

/-- The JSON body of a token-endpoint response: `access_token` is required
(a `KeyError` on its absence is out of scope for the claims),
`refresh_token` and `expires_in` are read with `.get`. -/
structure TokenResponse where
  access_token : String
  refresh_token : Option String
  expires_in : Option Int
deriving DecidableEq

/-- `refresh_tokens` from auth.py. The POST to the token endpoint is the
oracle argument `http`; on success the new record takes
`token_data.get("refresh_token", refresh_token)` — the response value if
present, otherwise the input refresh token — and
`expires_at = time.time() + token_data.get("expires_in", 3600)`. -/
def refresh_tokens (refresh_token : String) (now : Int)
    (http : Except RefreshError TokenResponse) : Except RefreshError TokenData :=
  match http with
  | .error e => .error e
  | .ok r =>
      .ok { access_token := r.access_token
            refresh_token := r.refresh_token.getD refresh_token
            expires_at := now + r.expires_in.getD 3600 }

/-- `get_access_token` from auth.py, taken after the `load_tokens()` step:
`stored` is the loaded record (`None` means not authenticated). Returns
`(result, refreshCalls, persisted)`: the `str | None` return value, the
number of times `refresh_tokens` was invoked, and the record on disk
afterwards. A refresh is attempted when `time.time() >= expires_at - 300`;
every failure of the refresh is caught and turned into `None`
(this function is total — it never propagates an exception). -/
def get_access_token (stored : Option TokenData) (now : Int)
    (http : Except RefreshError TokenResponse) :
    Option String × Nat × Option TokenData :=
  match stored with
  | none => (none, 0, none)
  | some td =>
      if td.expires_at - 300 ≤ now then
        match refresh_tokens td.refresh_token now http with
        | .ok td2 => (some td2.access_token, 1, some td2)
        | .error _ => (none, 1, some td)
      else
        (some td.access_token, 0, some td)

end Flow

namespace Flow

/-- JSON values, as produced by `json.load` in Python: numbers restricted to
the integers actually written by this program. -/
inductive Json where
  | null
  | bool (b : Bool)
  | num (n : Int)
  | str (s : String)
  | arr (elems : List Json)
  | obj (fields : List (String × Json))

/-- What `json.load` yields for the auth file: either a parse failure
(`json.JSONDecodeError`) or a parsed JSON document. -/
inductive FileData where
  | notJson
  | parsed (j : Json)

/-- The on-disk state of `~/.config/flow/auth.json`: its contents (if the
file exists) and its permission bits (if ever set by `chmod`). -/
structure AuthFile where
  data : Option FileData
  mode : Option Nat

/-- The one exception class `load_tokens` can leak: subscripting a
non-dict JSON document raises `TypeError`, which is not in its `except`
clause. -/
inductive PyError where
  | typeError
deriving DecidableEq

/-- `save_tokens` from auth.py: writes
`{access_token, refresh_token, expires_at}` as JSON and then chmods the
file to `0o600` (owner read/write only). -/
def save_tokens (td : TokenData) : AuthFile :=
  { data := some (.parsed (.obj
      [("access_token", .str td.access_token),
       ("refresh_token", .str td.refresh_token),
       ("expires_at", .num td.expires_at)]))
    mode := some 0o600 }

/-- Python dict subscription `data[k]` on a parsed JSON object. -/
def lookupKey (fields : List (String × Json)) (k : String) : Option Json :=
  (fields.find? (fun p => p.1 == k)).map (fun p => p.2)

/-- `load_tokens` from auth.py. Returns the three fields
`data["access_token"], data["refresh_token"], data["expires_at"]` exactly
as extracted (the `TokenData` constructor packages them without any
validation, so returning the raw JSON triple keeps the dynamic typing of Python
faithful). A missing file or a `json.JSONDecodeError` yields `None`; a
missing key raises `KeyError`, which the `except` clause turns into
`None`; but subscripting a document that is not a dict raises `TypeError`,
which the `except (json.JSONDecodeError, KeyError)` clause does NOT catch,
so it propagates. -/
def load_tokens (f : AuthFile) : Except PyError (Option (Json × Json × Json)) :=
  match f.data with
  | none => .ok none
  | some .notJson => .ok none
  | some (.parsed (.obj fields)) =>
      match lookupKey fields "access_token", lookupKey fields "refresh_token",
            lookupKey fields "expires_at" with
      | some a, some r, some e => .ok (some (a, r, e))
      | _, _, _ => .ok none
  | some (.parsed _) => .error .typeError

/-- Python `str.lower`, over the character list (the core `String.toLower`
is defined by well-founded recursion on byte positions and does not reduce
definitionally; this structural version is extensionally the same). -/
def lowerString (s : String) : String := ⟨s.data.map Char.toLower⟩

/-- `BINARY_EXTENSIONS` from utils/files.py. -/
def BINARY_EXTENSIONS : List String :=
  [".png", ".jpg", ".jpeg", ".gif", ".ico", ".svg", ".webp",
   ".pdf", ".doc", ".docx", ".xls", ".xlsx",
   ".zip", ".tar", ".gz", ".rar", ".7z",
   ".exe", ".dll", ".so", ".dylib",
   ".pyc", ".pyo", ".class", ".o",
   ".woff", ".woff2", ".ttf", ".eot",
   ".mp3", ".mp4", ".wav", ".avi", ".mov",
   ".db", ".sqlite", ".sqlite3"]

/-- `TEXT_EXTENSIONS` from utils/files.py. -/
def TEXT_EXTENSIONS : List String :=
  [".py", ".js", ".ts", ".jsx", ".tsx", ".mjs", ".cjs",
   ".java", ".kt", ".scala",
   ".c", ".cpp", ".h", ".hpp", ".cc",
   ".go", ".rs", ".swift",
   ".rb", ".php", ".pl", ".pm",
   ".sh", ".bash", ".zsh", ".fish",
   ".html", ".css", ".scss", ".sass", ".less",
   ".json", ".yaml", ".yml", ".toml", ".xml",
   ".md", ".txt", ".rst", ".org",
   ".sql", ".graphql",
   ".dockerfile", ".env", ".gitignore",
   ".conf", ".cfg", ".ini"]

/-- A regular file as seen by the collector and the indexer: base name,
path relative to the scan root, extension (`Path.suffix`, leading dot
included), byte size, last-modified time, and the outcomes of the two ways
the code reads it — `content` models
`path.read_text(encoding="utf-8", errors="replace")` (`none` when the OS
call fails) and `readStrict` models the plain `path.read_text()` used by
the indexer (`none` when it raises, e.g. an encoding or permission
error). -/
structure FsFile where
  name : String
  relPath : String
  suffix : String
  size : Nat
  mtime : Int
  content : Option String
  readStrict : Option String

/-- `is_binary_file` from utils/files.py: extension membership test. -/
def is_binary_file (f : FsFile) : Bool :=
  BINARY_EXTENSIONS.contains (lowerString f.suffix)

/-- `is_text_file` from utils/files.py: known text extension, or an
extension-less name on the fixed allow-list. -/
def is_text_file (f : FsFile) : Bool :=
  TEXT_EXTENSIONS.contains (lowerString f.suffix) ||
    (lowerString f.suffix == "" &&
      ["Makefile", "Dockerfile", "Vagrantfile", "Jenkinsfile"].contains f.name)

/-- `read_file_safe` from utils/files.py: `None` when the file is larger
than `max_size` bytes or the read fails, its text otherwise. -/
def read_file_safe (f : FsFile) (max_size : Nat := 100000) : Option String :=
  if f.size > max_size then none else f.content

/-- The `ext_map` table inside `get_language_from_extension`. -/
def ext_map : List (String × String) :=
  [(".py", "python"), (".js", "javascript"), (".ts", "typescript"),
   (".jsx", "jsx"), (".tsx", "tsx"), (".java", "java"), (".kt", "kotlin"),
   (".go", "go"), (".rs", "rust"), (".c", "c"), (".cpp", "cpp"),
   (".h", "c"), (".hpp", "cpp"), (".rb", "ruby"), (".php", "php"),
   (".swift", "swift"), (".sh", "bash"), (".bash", "bash"),
   (".html", "html"), (".css", "css"), (".scss", "scss"),
   (".json", "json"), (".yaml", "yaml"), (".yml", "yaml"),
   (".toml", "toml"), (".xml", "xml"), (".sql", "sql"), (".md", "markdown")]

/-- `get_language_from_extension` from utils/files.py, over the
`path.suffix` it inspects: table lookup with default `"text"`. -/
def get_language_from_extension (suffix : String) : String :=
  ((ext_map.find? (fun p => p.1 == lowerString suffix)).map (fun p => p.2)).getD "text"

/-- `ContextCollector._format_file`: empty output when `read_file_safe`
gives `None` or the empty string (the `if not content` check), otherwise a
fenced code block headed by the file name. -/
def format_file (f : FsFile) : String :=
  match read_file_safe f with
  | none => ""
  | some c =>
      if c = "" then ""
      else "# " ++ f.name ++ "\n```" ++ get_language_from_extension f.suffix
           ++ "\n" ++ c ++ "\n```"

/-- `ContextCollector._find_files`: keep regular files (the input list
already holds only those), drop binary extensions, drop paths matched by
the compiled ignore spec (the `pathspec` matcher is modelled as the
abstract predicate `ignored`), then sort by modification time, most recent
first (the stable `list.sort` with `reverse=True` is a stable merge sort
under the key order `b.mtime ≤ a.mtime`). -/
def find_files (ignored : String → Bool) (entries : List FsFile) : List FsFile :=
  (entries.filter (fun f => !is_binary_file f && !ignored f.relPath)).mergeSort
    (fun a b => decide (b.mtime ≤ a.mtime))

/-- The `context` section of the configuration (config.py): `max_files`
defaults to 50. -/
structure ContextConfig where
  max_files : Nat := 50
  ignore : List String := [".git", "node_modules", "__pycache__", ".venv"]

/-- The `parts` list built by `ContextCollector._collect_directory`: format
the first `max_files` of the found files, keeping only non-empty
results. -/
def collect_parts (ignored : String → Bool) (max_files : Nat)
    (entries : List FsFile) : List String :=
  ((find_files ignored entries).take max_files).filterMap
    (fun f => let s := format_file f; if s = "" then none else some s)

/-- `ContextCollector._collect_directory`: the parts joined by a blank
line. -/
def collect_directory (ignored : String → Bool) (max_files : Nat)
    (entries : List FsFile) : String :=
  String.intercalate "\n\n" (collect_parts ignored max_files entries)

/-- `FileInfo` dataclass from context/indexer.py. The absolute `path` field
is identified with the root-relative path in this model (the scan root
plays the role of the filesystem root). -/
structure FileInfo where
  path : String
  relative_path : String
  extension : String
  size : Nat
  lines : Option Nat
deriving DecidableEq

/-- The newline character. -/
def newlineChar : Char := Char.ofNat 10

/-- `len(content.splitlines())` for newline-separated text: the number of
newline-terminated or final segments (the claims never inspect the count
itself; other line terminators recognised by `str.splitlines` are not
modelled). -/
def pyCountLines (s : String) : Nat :=
  if s.data.isEmpty then 0
  else s.data.count newlineChar + (if s.data.getLast? == some newlineChar then 0 else 1)

/-- `FileIndexer._create_file_info`: the line count starts as `None` and is
filled in only for text-classified files strictly under 100,000 bytes whose
`read_text()` succeeds; a read failure hits the bare `except` and leaves it
`None`. -/
def create_file_info (f : FsFile) : FileInfo :=
  { path := f.relPath
    relative_path := f.relPath
    extension := lowerString f.suffix
    size := f.size
    lines :=
      if is_text_file f && decide (f.size < 100000) then
        f.readStrict.map pyCountLines
      else none }

/-- `FileIndexer.build_index`: every regular file that is neither
binary-classified nor ignore-matched gets an entry keyed by its relative
path (the dict is modelled as an association list in traversal order; the
`pathspec` matcher is again the abstract predicate `ignored`). -/
def build_index (ignored : String → Bool) (files : List FsFile) :
    List (String × FileInfo) :=
  files.filterMap (fun f =>
    if !is_binary_file f && !ignored f.relPath then
      some (f.relPath, create_file_info f)
    else none)

/-- A directory entry as seen by `Path.iterdir`: a regular file or a
subdirectory with its own entries. -/
inductive Entry where
  | file (name : String)
  | dir (name : String) (children : List Entry)

/-- `p.name` of an entry. -/
def Entry.name : Entry → String
  | .file n => n
  | .dir n _ => n

/-- `p.is_file()` of an entry. -/
def Entry.isFile : Entry → Bool
  | .file _ => true
  | .dir _ _ => false

/-- Lexicographic comparison of character sequences by code point —
the Python string order. -/
def lexLeChars : List Char → List Char → Bool
  | [], _ => true
  | _ :: _, [] => false
  | a :: as, b :: bs =>
      if a.toNat < b.toNat then true
      else if b.toNat < a.toNat then false
      else lexLeChars as bs

/-- Python string `<=` (code-point lexicographic). -/
def pyStrLe (a b : String) : Bool := lexLeChars a.data b.data

/-- The sort key order of `ContextCollector._build_tree`:
`key=lambda p: (p.is_file(), p.name.lower())` compared as Python tuples —
the is-file flag first (`False < True`, so directories sort before files),
the lower-cased name as tie-break. -/
def entryLe (a b : Entry) : Bool :=
  (!a.isFile && b.isFile) ||
    (a.isFile == b.isFile && pyStrLe (lowerString a.name) (lowerString b.name))

/-- `sorted(path.iterdir(), key=lambda p: (p.is_file(), p.name.lower()))`:
a stable sort under the tuple key order. -/
def sortEntries (l : List Entry) : List Entry := l.mergeSort entryLe

/-- The entries a single tree level displays: sorted, with names on the
ignore list dropped, truncated to the first 20. -/
def shownEntries (ignore : List String) (entries : List Entry) : List Entry :=
  ((sortEntries entries).filter (fun e => !(ignore.contains e.name))).take 20

/-- `ContextCollector._build_tree`: nothing below `max_depth = 0`;
otherwise render the (sorted, filtered, 20-capped) entries of the level
with box-drawing connectors — `is_last` at index `len(entries) - 1` or 19 —
recursing one level shallower into subdirectories and appending a
non-empty subtree as one extra joined line. -/
def buildTree (ignore : List String) : Nat → List Entry → String → String
  | 0, _, _ => ""
  | d + 1, entries, pref =>
      let kept := (sortEntries entries).filter (fun e => !(ignore.contains e.name))
      let segs := (shownEntries ignore entries).enum.map (fun p =>
        let isLast : Bool := (p.1 == kept.length - 1) || (p.1 == 19)
        let conn := if isLast then "└── " else "├── "
        match p.2 with
        | .file n => [pref ++ conn ++ n]
        | .dir n children =>
            let sub := buildTree ignore d children
              (pref ++ (if isLast then "    " else "│   "))
            (pref ++ conn ++ n ++ "/") :: (if sub == "" then [] else [sub]))
      String.intercalate "\n" segs.flatten

/-- The `project_files` candidate list of
`ContextCollector.collect_summary`, in order (first match wins). -/
def project_files : List String :=
  ["pyproject.toml", "package.json", "Cargo.toml",
   "go.mod", "pom.xml", "build.gradle"]

/-- The dot character. -/
def dotChar : Char := '.'

/-- `Path.suffix` for a single-component file name: the text from the last
dot on, empty when there is no dot, when the only dot leads the name
(hidden files), or when the dot is the final character. -/
def pathSuffix (name : String) : String :=
  let n := name.data.length
  let after := (name.data.reverse.takeWhile (fun c => c != dotChar)).length
  if after = n then ""
  else if n - after - 1 = 0 || after = 0 then ""
  else ⟨name.data.drop (n - after - 1)⟩

/-- The scan root as `collect_summary` sees it: the top-level entries and,
for each candidate name, the outcome of `read_file_safe(root / name)`
(`none` when missing, unreadable or over the size ceiling). -/
structure RootDir where
  entries : List Entry
  fileContents : String → Option String

/-- The directory-structure part of the summary: the tree is rendered with
`max_depth=2`. -/
def summary_tree (ignore : List String) (root : RootDir) : String :=
  buildTree ignore 2 root.entries ""

/-- `ContextCollector.collect_summary`: `None` outside a recognized
project; otherwise the first matching project descriptor file fenced with
its language tag (when it has non-empty readable content), then the
depth-2 tree (when non-empty), joined by a blank line. -/
def collect_summary (ignore : List String) (root : RootDir) : Option String :=
  match project_files.find? (fun pf => root.entries.any (fun e => e.name == pf)) with
  | none => none
  | some pf =>
      let parts :=
        (match root.fileContents pf with
         | some c =>
             if c = "" then []
             else ["# " ++ pf ++ "\n```" ++ get_language_from_extension (pathSuffix pf)
                   ++ "\n" ++ c ++ "\n```"]
         | none => []) ++
        (let tree := summary_tree ignore root
         if tree = "" then [] else ["# Project Structure\n```\n" ++ tree ++ "\n```"])
      if parts.isEmpty then none else some (String.intercalate "\n\n" parts)

/-- The URL-safe base64 alphabet (RFC 4648 §5), as used by
`base64.urlsafe_b64encode`: sextet value to ASCII code. -/
def b64Alphabet (s : Nat) : Nat :=
  if s < 26 then 65 + s
  else if s < 52 then 97 + (s - 26)
  else if s < 62 then 48 + (s - 52)
  else if s = 62 then 45
  else 95

/-- The inverse alphabet table: ASCII code back to sextet value. -/
def b64DecodeChar (c : Nat) : Option Nat :=
  if 65 ≤ c ∧ c ≤ 90 then some (c - 65)
  else if 97 ≤ c ∧ c ≤ 122 then some (c - 97 + 26)
  else if 48 ≤ c ∧ c ≤ 57 then some (c - 48 + 52)
  else if c = 45 then some 62
  else if c = 95 then some 63
  else none

/-- Base64 bit regrouping: bytes to 6-bit values, three bytes per group of
four sextets, with the standard short encodings for a trailing group of one
or two bytes. -/
def bytesToSextets : List Nat → List Nat
  | b1 :: b2 :: b3 :: rest =>
      b1 / 4 :: ((b1 % 4) * 16 + b2 / 16) :: ((b2 % 16) * 4 + b3 / 64)
        :: (b3 % 64) :: bytesToSextets rest
  | [b1, b2] => [b1 / 4, (b1 % 4) * 16 + b2 / 16, (b2 % 16) * 4]
  | [b1] => [b1 / 4, (b1 % 4) * 16]
  | [] => []

/-- The number of `=` pad characters base64 appends. -/
def padLen (n : Nat) : Nat := (3 - n % 3) % 3

/-- `base64.urlsafe_b64encode` over byte values: alphabet characters for
every sextet, then `=` (ASCII 61) padding up to a multiple of four. -/
def urlsafe_b64encode (bytes : List Nat) : List Nat :=
  (bytesToSextets bytes).map b64Alphabet ++ List.replicate (padLen bytes.length) 61

/-- `.rstrip(b"=")`: drop trailing `=` characters. -/
def rstripEq (l : List Nat) : List Nat :=
  (l.reverse.dropWhile (fun c => c == 61)).reverse

/-- Inverse bit regrouping: sextets back to bytes; a trailing group of one
sextet is not a valid unpadded base64 length. -/
def sextetsToBytes : List Nat → Option (List Nat)
  | s1 :: s2 :: s3 :: s4 :: rest =>
      (sextetsToBytes rest).map (fun bs =>
        (s1 * 4 + s2 / 16) :: ((s2 % 16) * 16 + s3 / 4) :: ((s3 % 4) * 64 + s4) :: bs)
  | [s1, s2, s3] => some [s1 * 4 + s2 / 16, (s2 % 16) * 16 + s3 / 4]
  | [s1, s2] => some [s1 * 4 + s2 / 16]
  | [_] => none
  | [] => some []

/-- Character-by-character strict table decoding. -/
def decodeChars : List Nat → Option (List Nat)
  | [] => some []
  | c :: cs =>
      match b64DecodeChar c, decodeChars cs with
      | some s, some ss => some (s :: ss)
      | _, _ => none

/-- Unpadded URL-safe base64 decoding: table-decode every character, then
regroup the sextets into bytes. -/
def b64urlDecode (chars : List Nat) : Option (List Nat) :=
  (decodeChars chars).bind sextetsToBytes

/-- `generate_pkce` from auth.py. The verifier is
`secrets.token_urlsafe(32)` — an entropy source, modelled as the input
`code_verifier`, given as its ASCII byte values; `hashlib.sha256` is the
abstract digest function `sha256` over those bytes. The challenge is
`base64.urlsafe_b64encode(sha256(verifier).digest()).rstrip(b"=")`. -/
def generate_pkce (sha256 : List Nat → List Nat) (code_verifier : List Nat) :
    List Nat × List Nat :=
  let digest := sha256 code_verifier
  let code_challenge := rstripEq (urlsafe_b64encode digest)
  (code_verifier, code_challenge)

/-- C2: a stored token whose `expires_at` is more than 300 seconds after
`now` is returned as-is with no refresh call; one whose `expires_at` is
within 300 seconds of `now` or in the past causes exactly one refresh
attempt. -/
theorem get_access_token_expiry_policy (td : TokenData) (now : Int)
    (http : Except RefreshError TokenResponse) :
    (now + 300 < td.expires_at →
      get_access_token (some td) now http = (some td.access_token, 0, some td)) ∧
    (td.expires_at ≤ now + 300 →
      (get_access_token (some td) now http).2.1 = 1) := by
  constructor
  · intro h
    have h' : ¬ td.expires_at - 300 ≤ now := by omega
    simp [get_access_token, h']
  · intro h
    have h' : td.expires_at - 300 ≤ now := by omega
    simp only [get_access_token, if_pos h']
    cases refresh_tokens td.refresh_token now http <;> rfl

/-- Witness for `get_access_token_expiry_policy` at concrete inputs. -/
theorem get_access_token_expiry_policy_witness :
    (get_access_token (some ⟨"at", "rt", 1000⟩) 0 (.error .network)
      = (some "at", 0, some ⟨"at", "rt", 1000⟩)) ∧
    ((get_access_token (some ⟨"at", "rt", 1000⟩) 800 (.error .network)).2.1 = 1) :=
  ⟨(get_access_token_expiry_policy ⟨"at", "rt", 1000⟩ 0 (.error .network)).1 (by decide),
   (get_access_token_expiry_policy ⟨"at", "rt", 1000⟩ 800 (.error .network)).2 (by decide)⟩

/-- C3: whenever the refresh step fails — HTTP status error, network error,
or any other exception — `get_access_token` returns `None` (and leaves the
stored record untouched), indistinguishable from being unauthenticated;
being a total function, it never raises. -/
theorem get_access_token_refresh_failure (td : TokenData) (now : Int)
    (e : RefreshError) (h : td.expires_at - 300 ≤ now) :
    get_access_token (some td) now (.error e) = (none, 1, some td) := by
  simp [get_access_token, h, refresh_tokens]

/-- Witness for `get_access_token_refresh_failure` at concrete inputs,
one per failure class. -/
theorem get_access_token_refresh_failure_witness :
    get_access_token (some ⟨"at", "rt", 100⟩) 500 (.error (.httpStatus 500))
      = (none, 1, some ⟨"at", "rt", 100⟩) ∧
    get_access_token (some ⟨"at", "rt", 100⟩) 500 (.error .network)
      = (none, 1, some ⟨"at", "rt", 100⟩) ∧
    get_access_token (some ⟨"at", "rt", 100⟩) 500 (.error .other)
      = (none, 1, some ⟨"at", "rt", 100⟩) :=
  ⟨get_access_token_refresh_failure ⟨"at", "rt", 100⟩ 500 (.httpStatus 500) (by decide),
   get_access_token_refresh_failure ⟨"at", "rt", 100⟩ 500 .network (by decide),
   get_access_token_refresh_failure ⟨"at", "rt", 100⟩ 500 .other (by decide)⟩

/-- C4: when the refresh response omits `refresh_token`, the returned
record keeps the refresh token supplied as input (and the record persisted
by `get_access_token` keeps the stored one); when the response includes
one, it replaces the prior value. -/
theorem refresh_tokens_retains_refresh_token (rt : String) (now : Int)
    (resp : TokenResponse) :
    (resp.refresh_token = none →
      refresh_tokens rt now (.ok resp)
        = .ok ⟨resp.access_token, rt, now + resp.expires_in.getD 3600⟩) ∧
    (∀ r, resp.refresh_token = some r →
      refresh_tokens rt now (.ok resp)
        = .ok ⟨resp.access_token, r, now + resp.expires_in.getD 3600⟩) ∧
    (resp.refresh_token = none → ∀ td : TokenData, td.expires_at - 300 ≤ now →
      (get_access_token (some td) now (.ok resp)).2.2
        = some ⟨resp.access_token, td.refresh_token, now + resp.expires_in.getD 3600⟩) := by
  refine ⟨fun h => ?_, fun r h => ?_, fun h td hexp => ?_⟩
  · simp [refresh_tokens, h]
  · simp [refresh_tokens, h]
  · simp [get_access_token, hexp, refresh_tokens, h]

/-- Witness for `refresh_tokens_retains_refresh_token` at concrete inputs. -/
theorem refresh_tokens_retains_refresh_token_witness :
    refresh_tokens "old" 10 (.ok ⟨"acc", none, some 60⟩) = .ok ⟨"acc", "old", 70⟩ ∧
    refresh_tokens "old" 10 (.ok ⟨"acc", some "new", some 60⟩) = .ok ⟨"acc", "new", 70⟩ ∧
    (get_access_token (some ⟨"at", "old", 100⟩) 10 (.ok ⟨"acc", none, some 60⟩)).2.2
      = some ⟨"acc", "old", 70⟩ :=
  ⟨(refresh_tokens_retains_refresh_token "old" 10 ⟨"acc", none, some 60⟩).1 rfl,
   (refresh_tokens_retains_refresh_token "old" 10 ⟨"acc", some "new", some 60⟩).2.1 "new" rfl,
   (refresh_tokens_retains_refresh_token "old" 10 ⟨"acc", none, some 60⟩).2.2 rfl
     ⟨"at", "old", 100⟩ (by decide)⟩

/-- C5: saving a token record and immediately loading it yields the three
fields back unchanged (field-for-field equality), and the permission bits of the saved
file are `0o600` (owner read/write only). -/
theorem save_tokens_load_tokens_roundtrip (td : TokenData) :
    load_tokens (save_tokens td)
      = .ok (some (.str td.access_token, .str td.refresh_token, .num td.expires_at)) ∧
    (save_tokens td).mode = some 0o600 :=
  ⟨rfl, rfl⟩

/-- C6 (code bug): the `except (json.JSONDecodeError, KeyError)` clause of
`load_tokens` handles a missing file, an unparsable file and a JSON object
with missing fields by returning `None`, but a file holding a valid JSON
document that is not an object (here `[]`) raises an uncaught `TypeError`
when subscripted, contradicting both the claim and the docstring of the
function itself ("None otherwise"). -/
theorem load_tokens_raises_on_nonobject_json :
    load_tokens ⟨some (.parsed (.arr [])), none⟩ = .error .typeError ∧
    load_tokens ⟨none, none⟩ = .ok none ∧
    load_tokens ⟨some .notJson, none⟩ = .ok none ∧
    load_tokens ⟨some (.parsed (.obj [("access_token", .str "a")])), none⟩ = .ok none :=
  ⟨rfl, rfl, rfl, rfl⟩

/-- Decoding inverts the alphabet table on every sextet value. -/
theorem b64DecodeChar_b64Alphabet : ∀ s < 64, b64DecodeChar (b64Alphabet s) = some s := by
  decide

/-- No alphabet character is the pad character `=` (ASCII 61). -/
theorem b64Alphabet_ne_eq : ∀ s < 64, (b64Alphabet s == 61) = false := by
  decide

/-- Bit regrouping of bytes yields only 6-bit values. -/
theorem sextets_lt_64 : ∀ l : List Nat, (∀ b ∈ l, b < 256) →
    ∀ s ∈ bytesToSextets l, s < 64
  | [], _ => by simp [bytesToSextets]
  | [b1], h => by
      have hb1 : b1 < 256 := h b1 (by simp)
      intro s hs
      simp [bytesToSextets] at hs
      rcases hs with rfl | rfl <;> omega
  | [b1, b2], h => by
      have hb1 : b1 < 256 := h b1 (by simp)
      have hb2 : b2 < 256 := h b2 (by simp)
      intro s hs
      simp [bytesToSextets] at hs
      rcases hs with rfl | rfl | rfl <;> omega
  | b1 :: b2 :: b3 :: rest, h => by
      have hb1 : b1 < 256 := h b1 (by simp)
      have hb2 : b2 < 256 := h b2 (by simp)
      have hb3 : b3 < 256 := h b3 (by simp)
      have ih := sextets_lt_64 rest (fun b hb => h b (by simp [hb]))
      intro s hs
      simp only [bytesToSextets, List.mem_cons] at hs
      rcases hs with rfl | rfl | rfl | rfl | hs
      · omega
      · omega
      · omega
      · omega
      · exact ih s hs

/-- Bit regrouping round-trips: sextets back to the original bytes. -/
theorem sextets_roundtrip : ∀ l : List Nat, (∀ b ∈ l, b < 256) →
    sextetsToBytes (bytesToSextets l) = some l
  | [], _ => rfl
  | [b1], h => by
      have hb1 : b1 < 256 := h b1 (by simp)
      simp only [bytesToSextets, sextetsToBytes, Option.some.injEq, List.cons.injEq,
        and_true]
      omega
  | [b1, b2], h => by
      have hb1 : b1 < 256 := h b1 (by simp)
      have hb2 : b2 < 256 := h b2 (by simp)
      simp only [bytesToSextets, sextetsToBytes, Option.some.injEq, List.cons.injEq,
        and_true]
      constructor <;> omega
  | b1 :: b2 :: b3 :: rest, h => by
      have hb1 : b1 < 256 := h b1 (by simp)
      have hb2 : b2 < 256 := h b2 (by simp)
      have hb3 : b3 < 256 := h b3 (by simp)
      have ih := sextets_roundtrip rest (fun b hb => h b (by simp [hb]))
      simp only [bytesToSextets, sextetsToBytes, ih, Option.map_some',
        Option.some.injEq, List.cons.injEq, and_true]
      refine ⟨by omega, by omega, by omega⟩

/-- Table decoding inverts alphabet mapping over a whole sextet list. -/
theorem decodeChars_map_alphabet : ∀ l : List Nat, (∀ s ∈ l, s < 64) →
    decodeChars (l.map b64Alphabet) = some l
  | [], _ => rfl
  | s :: ss, h => by
      have hs : s < 64 := h s (by simp)
      have ih := decodeChars_map_alphabet ss (fun x hx => h x (by simp [hx]))
      simp only [List.map_cons, decodeChars, b64DecodeChar_b64Alphabet s hs, ih]

/-- Dropping `=` characters passes over a leading run of them. -/
theorem dropWhile_rep : ∀ (k : Nat) (l : List Nat),
    List.dropWhile (fun c => c == 61) (List.replicate k 61 ++ l)
      = List.dropWhile (fun c => c == 61) l
  | 0, l => by simp
  | k + 1, l => by
      simp [List.replicate_succ, List.dropWhile_cons, dropWhile_rep k l]

/-- Dropping `=` characters leaves an `=`-free list unchanged. -/
theorem dropWhile_eq_self : ∀ l : List Nat, (∀ c ∈ l, (c == 61) = false) →
    List.dropWhile (fun c => c == 61) l = l
  | [], _ => rfl
  | c :: cs, h => by
      simp [List.dropWhile_cons, h c (by simp)]

/-- `.rstrip(b"=")` removes exactly the appended padding. -/
theorem rstripEq_append_rep (xs : List Nat) (k : Nat)
    (hx : ∀ c ∈ xs, (c == 61) = false) :
    rstripEq (xs ++ List.replicate k 61) = xs := by
  unfold rstripEq
  rw [List.reverse_append, List.reverse_replicate, dropWhile_rep,
    dropWhile_eq_self, List.reverse_reverse]
  intro c hc
  exact hx c (List.mem_reverse.mp hc)

/-- Unpadded URL-safe base64 decoding inverts encode-then-strip on any
byte list. -/
theorem b64url_decode_rstrip_encode (l : List Nat) (h : ∀ b ∈ l, b < 256) :
    b64urlDecode (rstripEq (urlsafe_b64encode l)) = some l := by
  have hsex := sextets_lt_64 l h
  have hne : ∀ c ∈ (bytesToSextets l).map b64Alphabet, (c == 61) = false := by
    intro c hc
    obtain ⟨s, hsm, rfl⟩ := List.mem_map.mp hc
    exact b64Alphabet_ne_eq s (hsex s hsm)
  unfold urlsafe_b64encode
  rw [rstripEq_append_rep _ _ hne]
  unfold b64urlDecode
  rw [decodeChars_map_alphabet _ hsex]
  simp [sextets_roundtrip l h]

/-- C1: for every pair returned by `generate_pkce`, the challenge is the
URL-safe base64 encoding of the SHA-256 digest of the ASCII bytes of the
verifier with `=` padding stripped, and — equivalently — decoding the
challenge recovers exactly that digest. -/
theorem generate_pkce_challenge_is_b64_sha256 (sha256 : List Nat → List Nat)
    (verifier : List Nat) (h : ∀ b ∈ sha256 verifier, b < 256) :
    (generate_pkce sha256 verifier).1 = verifier ∧
    (generate_pkce sha256 verifier).2
      = rstripEq (urlsafe_b64encode (sha256 verifier)) ∧
    b64urlDecode ((generate_pkce sha256 verifier).2) = some (sha256 verifier) :=
  ⟨rfl, rfl, b64url_decode_rstrip_encode _ h⟩

/-- Witness for `generate_pkce_challenge_is_b64_sha256` with a concrete
32-byte digest function and verifier. -/
theorem generate_pkce_challenge_is_b64_sha256_witness :
    b64urlDecode ((generate_pkce (fun _ => List.range 32) [97, 98, 99]).2)
      = some (List.range 32) :=
  (generate_pkce_challenge_is_b64_sha256 (fun _ => List.range 32) [97, 98, 99]
    (by decide)).2.2

/-- Totality of the code-point order on character sequences. -/
theorem lexLeChars_total : ∀ as bs, (lexLeChars as bs || lexLeChars bs as) = true
  | [], _ => by simp [lexLeChars]
  | _ :: _, [] => by simp [lexLeChars]
  | a :: as, b :: bs => by
      by_cases h1 : a.toNat < b.toNat
      · simp [lexLeChars, h1]
      · by_cases h2 : b.toNat < a.toNat
        · simp [lexLeChars, h1, h2]
        · simpa [lexLeChars, h1, h2] using lexLeChars_total as bs

/-- Transitivity of the code-point order on character sequences. -/
theorem lexLeChars_trans :
    ∀ as bs cs, lexLeChars as bs = true → lexLeChars bs cs = true →
      lexLeChars as cs = true
  | [], _, cs, _, _ => by cases cs <;> simp [lexLeChars]
  | _ :: _, [], _, h, _ => by simp [lexLeChars] at h
  | _ :: _, _ :: _, [], _, h => by simp [lexLeChars] at h
  | a :: as, b :: bs, c :: cs, h1, h2 => by
      simp only [lexLeChars] at h1 h2 ⊢
      by_cases hab : a.toNat < b.toNat
      · by_cases hbc : b.toNat < c.toNat
        · have hac : a.toNat < c.toNat := by omega
          simp [hac]
        · rw [if_neg hbc] at h2
          by_cases hcb : c.toNat < b.toNat
          · rw [if_pos hcb] at h2
            exact absurd h2 (by simp)
          · have hac : a.toNat < c.toNat := by omega
            simp [hac]
      · rw [if_neg hab] at h1
        by_cases hba : b.toNat < a.toNat
        · rw [if_pos hba] at h1
          exact absurd h1 (by simp)
        · rw [if_neg hba] at h1
          by_cases hbc : b.toNat < c.toNat
          · have hac : a.toNat < c.toNat := by omega
            simp [hac]
          · rw [if_neg hbc] at h2
            by_cases hcb : c.toNat < b.toNat
            · rw [if_pos hcb] at h2
              exact absurd h2 (by simp)
            · rw [if_neg hcb] at h2
              have hac : ¬ a.toNat < c.toNat := by omega
              have hca : ¬ c.toNat < a.toNat := by omega
              rw [if_neg hac, if_neg hca]
              exact lexLeChars_trans as bs cs h1 h2

/-- The tuple key order of `_build_tree` is total. -/
theorem entryLe_total (a b : Entry) : (entryLe a b || entryLe b a) = true := by
  cases ha : a.isFile <;> cases hb : b.isFile <;>
    simp [entryLe, ha, hb, pyStrLe] <;>
      simpa using lexLeChars_total (lowerString a.name).data (lowerString b.name).data

/-- The tuple key order of `_build_tree` is transitive. -/
theorem entryLe_trans (a b c : Entry) (h1 : entryLe a b = true)
    (h2 : entryLe b c = true) : entryLe a c = true := by
  cases ha : a.isFile <;> cases hb : b.isFile <;> cases hc : c.isFile <;>
    simp_all [entryLe, pyStrLe] <;>
      exact lexLeChars_trans _ _ _ h1 h2

/-- C7: collecting context from a directory keeps the surviving files
sorted by last-modified time descending, joins the formatted blocks of the
first `max_files` of them (default 50) with a blank-line separator, and
never emits more than `max_files` blocks — files past the cap are silently
dropped (the function is total: no error, no truncation notice). -/
theorem collect_directory_cap_and_order (ignored : String → Bool)
    (maxFiles : Nat) (entries : List FsFile) :
    collect_directory ignored maxFiles entries
      = String.intercalate "\n\n" (collect_parts ignored maxFiles entries) ∧
    (collect_parts ignored maxFiles entries).length ≤ maxFiles ∧
    (find_files ignored entries).Pairwise (fun a b => b.mtime ≤ a.mtime) ∧
    ContextConfig.max_files {} = 50 := by
  refine ⟨rfl, ?_, ?_, rfl⟩
  · calc (collect_parts ignored maxFiles entries).length
        ≤ ((find_files ignored entries).take maxFiles).length :=
          List.length_filterMap_le _ _
      _ ≤ maxFiles := by simp [List.length_take]
  · have h := @List.sorted_mergeSort FsFile
      (fun a b => decide (b.mtime ≤ a.mtime))
      (fun a b c hab hbc => by
        simp only [decide_eq_true_eq] at *
        exact le_trans hbc hab)
      (fun a b => by
        simp only [Bool.or_eq_true, decide_eq_true_eq]
        exact le_total _ _)
      (entries.filter (fun f => !is_binary_file f && !ignored f.relPath))
    exact h.imp (fun hab => by simpa using hab)

/-- C9: in the file index, a line count is present only for files
classified as text with size strictly under 100,000 bytes; a failed read
leaves the count absent; and no read failure ever drops a surviving file
from the index or aborts the build (the build is a total function over the
file list). -/
theorem create_file_info_line_count (f : FsFile) :
    ((create_file_info f).lines ≠ none →
      is_text_file f = true ∧ f.size < 100000) ∧
    (f.readStrict = none → (create_file_info f).lines = none) ∧
    (∀ (ignored : String → Bool) (files : List FsFile),
      f ∈ files → is_binary_file f = false → ignored f.relPath = false →
      (f.relPath, create_file_info f) ∈ build_index ignored files) := by
  refine ⟨fun h => ?_, fun h => ?_, fun ignored files hmem hbin hig => ?_⟩
  · by_cases hc : is_text_file f && decide (f.size < 100000)
    · simpa using hc
    · simp [create_file_info, hc] at h
  · by_cases hc : is_text_file f && decide (f.size < 100000) <;>
      simp [create_file_info, hc, h]
  · exact List.mem_filterMap.mpr ⟨f, hmem, by simp [hbin, hig]⟩

/-- Witness for `create_file_info_line_count` at concrete inputs. -/
theorem create_file_info_line_count_witness :
    (is_text_file ⟨"a.py", "a.py", ".py", 10, 0, some "x", some "x"⟩ = true ∧
      (10 : Nat) < 100000) ∧
    (create_file_info ⟨"b.py", "b.py", ".py", 10, 0, some "x", none⟩).lines = none ∧
    ("a.py", create_file_info ⟨"a.py", "a.py", ".py", 10, 0, some "x", some "x"⟩)
      ∈ build_index (fun _ => false)
          [⟨"a.py", "a.py", ".py", 10, 0, some "x", some "x"⟩] :=
  ⟨(create_file_info_line_count ⟨"a.py", "a.py", ".py", 10, 0, some "x", some "x"⟩).1
      (by decide),
   (create_file_info_line_count ⟨"b.py", "b.py", ".py", 10, 0, some "x", none⟩).2.1 rfl,
   (create_file_info_line_count ⟨"a.py", "a.py", ".py", 10, 0, some "x", some "x"⟩).2.2
      (fun _ => false) _ (List.mem_singleton.mpr rfl) (by decide) rfl⟩

/-- C10: a readable file whose content is the empty string formats to the
empty string, exactly like an unreadable file or one over the 100,000-byte
ceiling, so existing-but-empty files are silently excluded from directory
context output. -/
theorem format_file_empty_content (f : FsFile) :
    (f.content = some "" → format_file f = "") ∧
    (f.content = none → format_file f = "") ∧
    (f.size > 100000 → format_file f = "") := by
  refine ⟨fun h => ?_, fun h => ?_, fun h => ?_⟩
  · by_cases hs : f.size > 100000 <;> simp [format_file, read_file_safe, h, hs]
  · by_cases hs : f.size > 100000 <;> simp [format_file, read_file_safe, h, hs]
  · simp [format_file, read_file_safe, h]

/-- Witness for `format_file_empty_content` at concrete inputs. -/
theorem format_file_empty_content_witness :
    format_file ⟨"e.py", "e.py", ".py", 0, 0, some "", some ""⟩ = "" ∧
    format_file ⟨"u.py", "u.py", ".py", 10, 0, none, none⟩ = "" ∧
    format_file ⟨"big.py", "big.py", ".py", 200000, 0, some "x", some "x"⟩ = "" :=
  ⟨(format_file_empty_content ⟨"e.py", "e.py", ".py", 0, 0, some "", some ""⟩).1 rfl,
   (format_file_empty_content ⟨"u.py", "u.py", ".py", 10, 0, none, none⟩).2.1 rfl,
   (format_file_empty_content ⟨"big.py", "big.py", ".py", 200000, 0, some "x", some "x"⟩).2.2
      (by decide)⟩

/-- C8 counterexample: in a directory holding the file `a` and the
subdirectory `b`, an alphabetical listing (with any tie-break — the names
differ) would put `a` first, but `_build_tree` lists `b/` before `a`: the
primary sort key is the is-file flag, which places directories first, so
the rendered level is "├── b/\n└── a" and the sorted entry list is not the
alphabetical one. -/
theorem build_tree_order_counterexample :
    buildTree [] 2 [Entry.file "a", Entry.dir "b" []] "" = "├── b/\n└── a" ∧
    sortEntries [Entry.file "a", Entry.dir "b" []]
      = [Entry.dir "b" [], Entry.file "a"] ∧
    sortEntries [Entry.file "a", Entry.dir "b" []]
      ≠ [Entry.file "a", Entry.dir "b" []] := by
  have hs : sortEntries [Entry.file "a", Entry.dir "b" []]
      = [Entry.dir "b" [], Entry.file "a"] := by
    simp [sortEntries, List.mergeSort, entryLe, Entry.isFile, List.merge]
  refine ⟨?_, hs, ?_⟩
  · simp only [buildTree, shownEntries, hs]
    norm_num [List.enum, List.enumFrom, String.intercalate, sortEntries,
      List.mergeSort_nil]
    rfl
  · rw [hs]
    intro h
    exact Entry.noConfusion (List.cons.inj h).1

/-- C8 as amended: each tree level lists directories before files — the
sort key is the tuple (is-file flag, lower-cased name), so the flag is the
primary key and the name the tie-break, not the other way round — while,
as claimed, at most 20 entries are shown per level with further entries
silently omitted, nothing is rendered once the depth is exhausted, and the
project summary renders the tree with depth 2. -/
theorem build_tree_amended :
    (∀ l, (sortEntries l).Pairwise (fun a b => entryLe a b = true)) ∧
    (∀ ig l, (shownEntries ig l).length ≤ 20) ∧
    (∀ ig l p, buildTree ig 0 l p = "") ∧
    (∀ ig r, summary_tree ig r = buildTree ig 2 r.entries "") := by
  refine ⟨fun l => ?_, fun ig l => ?_, fun ig l p => rfl, fun ig r => rfl⟩
  · exact List.sorted_mergeSort (fun a b c => entryLe_trans a b c) entryLe_total l
  · simp only [shownEntries]
    exact List.length_take_le 20 _

end Flow
